import Mathlib

/-!
# Referral partner chaincode broker

A shallow embedding of `53referral_chaincode.go`: the broker that routes
referral records to three partner chaincodes (retail, commercial, banking),
resolves the partner holding a key by probing, and merges search results.

Modelling conventions.

* A Go `string` is a Lean `String`; a Go `[]byte` is an `Option String`,
  where `none` is the `nil` slice and `some s` a non-nil slice with content
  `s` (so `some ""` is the empty, non-nil slice).
* A Go `error` is an `Option String`: `none` is `nil`, `some msg` an error.
* `stub.InvokeChaincode` is an external collaborator.  A `Backend` answers a
  call as a function of the calls issued before it, so it may be stateful;
  every call is appended to a log, which is threaded through the functions.
* `json.Unmarshal` is an external collaborator, taken as a `Codec` parameter.
* A Go run-time panic (index out of range) is the `Except.error` outcome.
* `fmt.Println` output is not modelled.
-/

namespace ReferralBroker

/-! ## Data model -/

/-- Go struct `Mortgage`. -/
structure Mortgage where
  MortgageNumber : String
  MortgageType : String
  ReferralId : String
  Rate : String
  Amount : String
deriving DecidableEq, Repr

/-- Go struct `CustomerReferral`. -/
structure CustomerReferral where
  ReferralId : String
  CustomerName : String
  ContactNumber : String
  CustomerId : String
  EmployeeId : String
  Departments : List String
  CreateDate : Int
  Status : String
  Mortgage : Mortgage
deriving DecidableEq, Repr

/-- Go struct `ReferralPartnerChaincodeBroker`: the three partner chaincode
identifiers. -/
structure ReferralPartnerChaincodeBroker where
  RetailChaincode : String
  CommercialChaincode : String
  BankingChaincode : String
deriving DecidableEq, Repr

/-- One call of `stub.InvokeChaincode(chaincode, function, args)`. -/
structure Call where
  chaincode : String
  function : String
  args : List String
deriving DecidableEq, Repr

/-- The pair `([]byte, error)` returned by a Go function. -/
structure Resp where
  bytes : Option String
  err : Option String
deriving DecidableEq, Repr

/-- The ledger backend behind `stub.InvokeChaincode`: its answer to a call may
depend on every call issued before it. -/
abbrev Backend := List Call → Call → Resp

/-- The record codec behind `json.Unmarshal`: decoding into a
`CustomerReferral` and into a `[]CustomerReferral`.  The result is the Go
`error` of the call (`Except.error msg`) or the decoded value. -/
structure Codec where
  unmarshalReferral : String → Except String CustomerReferral
  unmarshalReferrals : String → Except String (List CustomerReferral)

/-! ## Helpers -/

/-- Go `BytesToString`: reinterprets the bytes as a string; a nil slice gives
the empty string. -/
def BytesToString : Option String → String
  | none => ""
  | some s => s

/-- Substring test on character lists. -/
def containsChars : List Char → List Char → Bool
  | [], sub => sub.isEmpty
  | c :: s, sub => sub.isPrefixOf (c :: s) || containsChars s sub

/-- Go `strings.Contains(s, substr)`. -/
def stringsContains (s substr : String) : Bool :=
  containsChars s.data substr.data

/-- Method `stub.InvokeChaincode`: asks the backend and records the call. -/
def InvokeChaincode (b : Backend) (log : List Call) (chaincode function : String)
    (args : List String) : Resp × List Call :=
  (b log ⟨chaincode, function, args⟩, log ++ [⟨chaincode, function, args⟩])

/-! ## Partner resolution -/

/-- Method `getReferralPartner` (lines 137-174): returns `(error, partner)`
and the call log. -/
def getReferralPartner (t : ReferralPartnerChaincodeBroker) (b : Backend)
    (log : List Call) (args : List String) : (Option String × String) × List Call :=
  let r1 := InvokeChaincode b log t.RetailChaincode "Query" args
  if r1.1.bytes ≠ none ∧ r1.1.err = none ∧
      stringsContains (BytesToString r1.1.bytes) "Did not find entry" = false then
    ((none, t.RetailChaincode), r1.2)
  else
    let r2 := InvokeChaincode b r1.2 t.CommercialChaincode "Query" args
    if r2.1.bytes ≠ none ∧ r2.1.err = none ∧
        stringsContains (BytesToString r2.1.bytes) "Did not find entry" = false then
      ((none, t.CommercialChaincode), r2.2)
    else
      let r3 := InvokeChaincode b r2.2 t.BankingChaincode "Query" args
      if r3.1.bytes ≠ none ∧ r3.1.err = none ∧
          stringsContains (BytesToString r3.1.bytes) "Did not find entry" = false then
        ((none, t.BankingChaincode), r3.2)
      else
        ((r3.1.err, ""), r3.2)

/-- Method `updateReferralStatus` (lines 177-195). -/
def updateReferralStatus (t : ReferralPartnerChaincodeBroker) (b : Backend)
    (log : List Call) (args : List String) : Resp × List Call :=
  let p := getReferralPartner t b log args
  let err := p.1.1
  let value := p.1.2
  if value = t.RetailChaincode then
    InvokeChaincode b p.2 t.RetailChaincode "Invoke" args
  else if value = t.CommercialChaincode then
    InvokeChaincode b p.2 t.CommercialChaincode "Invoke" args
  else if value = t.BankingChaincode then
    InvokeChaincode b p.2 t.BankingChaincode "Invoke" args
  else
    (⟨none, err⟩, p.2)

/-! ## Create: routing by department -/

/-- The loop of `createReferral` over `referral.Departments` (lines 221-235)
and the return after it (line 242).  `valAsbytes` and `err` are the two local
variables the loop assigns. -/
def createReferralLoop (t : ReferralPartnerChaincodeBroker) (b : Backend)
    (args : List String) (referralData : String) :
    List String → Option String → Option String → List Call → Resp × List Call
  | [], valAsbytes, _, log => (⟨valAsbytes, none⟩, log)
  | d :: ds, valAsbytes, err, log =>
    let r : Resp × List Call :=
      if d = "RETAIL" then InvokeChaincode b log t.RetailChaincode "Invoke" args
      else if d = "COMMERCIAL" then InvokeChaincode b log t.CommercialChaincode "Invoke" args
      else if d = "BANKING" then InvokeChaincode b log t.BankingChaincode "Invoke" args
      else (⟨valAsbytes, err⟩, log)
    if r.1.err ≠ none then
      (⟨some ("Count not index the bytes by department from the value: " ++ referralData ++
          " on the ledger"), r.1.err⟩, r.2)
    else
      createReferralLoop t b args referralData ds r.1.bytes r.1.err r.2

/-- Method `createReferral` (lines 198-243). -/
def createReferral (t : ReferralPartnerChaincodeBroker) (codec : Codec) (b : Backend)
    (log : List Call) (args : List String) : Resp × List Call :=
  match args with
  | [_, referralData] =>
    match codec.unmarshalReferral referralData with
    | .error e =>
      (⟨some ("Count not unmarshall payload data: " ++ referralData ++ " for the ledger"),
        some e⟩, log)
    | .ok referral =>
      createReferralLoop t b args referralData referral.Departments none none log
  | _ =>
    (⟨none, some ("Incorrect number of arguments. Expecting 2 parameters, " ++
      "name of the key and value to set")⟩, log)

/-! ## Search: fan-out and merge -/

/-- The inner loop of the merge (lines 313-317, 326-330): scans all of
`searchResults` and sets `matchFound` on every equal identifier. -/
def matchFoundLoop (referralId : String) (searchResults : List CustomerReferral) : Bool :=
  searchResults.foldl
    (fun matchFound r => if referralId = r.ReferralId then true else matchFound) false

/-- One outer merge loop (lines 311-322, 324-335): appends each record of
`matching` for which the inner loop found no match. -/
def mergeLoop (searchResults matching : List CustomerReferral) : List CustomerReferral :=
  matching.foldl
    (fun acc m => if matchFoundLoop m.ReferralId acc = false then acc ++ [m] else acc)
    searchResults

/-- The value of the local `searchResults` after lines 309-335. -/
def searchResults (matchingRetailReferrals matchingCommercialReferrals
    matchingBankingReferrals : List CustomerReferral) : List CustomerReferral :=
  mergeLoop (mergeLoop ([] ++ matchingRetailReferrals) matchingCommercialReferrals)
    matchingBankingReferrals

/-- The error return of `searchByStatus` (lines 289-290): indexing `args[0]`
panics on empty `args`. -/
def searchFailure (args : List String) : Except String Resp :=
  match args with
  | [] => .error "index out of range"
  | a0 :: _ => .ok ⟨none, some ("\x7b\"Error\":\"Failed to get state for " ++ a0 ++ "\"\x7d")⟩

/-- Method `searchByStatus` (lines 279-342).  The third component is the final
value of the local variable `searchResults` when the merge loops were reached;
the Go function does not return it. -/
def searchByStatus (t : ReferralPartnerChaincodeBroker) (codec : Codec) (b : Backend)
    (log : List Call) (args : List String) :
    Except String Resp × List Call × Option (List CustomerReferral) :=
  let r1 := InvokeChaincode b log t.RetailChaincode "Invoke" args
  match codec.unmarshalReferrals (BytesToString r1.1.bytes) with
  | .error _ => (searchFailure args, r1.2, none)
  | .ok matchingRetailReferrals =>
    let r2 := InvokeChaincode b r1.2 t.CommercialChaincode "Invoke" args
    match codec.unmarshalReferrals (BytesToString r2.1.bytes) with
    | .error _ => (searchFailure args, r2.2, none)
    | .ok matchingCommercialReferrals =>
      let r3 := InvokeChaincode b r2.2 t.BankingChaincode "Invoke" args
      match codec.unmarshalReferrals (BytesToString r3.1.bytes) with
      | .error _ => (searchFailure args, r3.2, none)
      | .ok matchingBankingReferrals =>
        (.ok ⟨r3.1.bytes, none⟩, r3.2,
          some (searchResults matchingRetailReferrals matchingCommercialReferrals
            matchingBankingReferrals))

/-- Method `searchByPartner` (lines 268-277): indexing `args[0]` panics on
empty `args`. -/
def searchByPartner (b : Backend) (log : List Call) (args : List String) :
    Except String Resp × List Call :=
  match args with
  | [] => (.error "index out of range", log)
  | a0 :: _ =>
    let r := InvokeChaincode b log a0 "Query" args
    if r.1.err ≠ none then
      (.ok ⟨none, some ("\x7b\"Error\":\"Failed to get state for " ++ a0 ++ "\"\x7d")⟩, r.2)
    else
      (.ok ⟨r.1.bytes, none⟩, r.2)

/-! ## Read -/

/-- Method `read` (lines 346-376).  The local `key` is never assigned, so it
is the empty string in both messages. -/
def read (t : ReferralPartnerChaincodeBroker) (b : Backend) (log : List Call)
    (args : List String) : Resp × List Call :=
  let key : String := ""
  if args.length ≠ 1 then
    (⟨none, some "Incorrect number of arguments. Expecting name of the key to query"⟩, log)
  else
    let p := getReferralPartner t b log args
    let value := p.1.2
    let r : Resp × List Call :=
      if value = t.RetailChaincode then
        InvokeChaincode b p.2 t.RetailChaincode "Query" args
      else if value = t.CommercialChaincode then
        InvokeChaincode b p.2 t.CommercialChaincode "Query" args
      else if value = t.BankingChaincode then
        InvokeChaincode b p.2 t.BankingChaincode "Query" args
      else
        (⟨none, p.1.1⟩, p.2)
    if r.1.err ≠ none then
      (⟨some ("\x7b\"Error\":\"Failed to get state for " ++ key ++ "\"\x7d"), r.1.err⟩, r.2)
    else if r.1.bytes = none then
      (⟨some ("Did not find entry for key: " ++ key), none⟩, r.2)
    else
      (⟨r.1.bytes, none⟩, r.2)

/-! ## Entry points -/

/-- Method `Init` (lines 67-74): assigns the three identifiers one after the
other; indexing `args[i]` panics when `args` is too short, after the earlier
assignments were made.  Returns the outcome and the broker state. -/
def Init (t : ReferralPartnerChaincodeBroker) (args : List String) :
    Except String Resp × ReferralPartnerChaincodeBroker :=
  match args with
  | [] => (.error "index out of range", t)
  | [a0] => (.error "index out of range", { t with RetailChaincode := a0 })
  | [a0, a1] =>
    (.error "index out of range", { t with RetailChaincode := a0, CommercialChaincode := a1 })
  | a0 :: a1 :: a2 :: _ => (.ok ⟨none, none⟩, ⟨a0, a1, a2⟩)

/-- Method `Invoke` (lines 77-91): dispatch on the function name.  Returns the
outcome, the broker state and the call log. -/
def Invoke (t : ReferralPartnerChaincodeBroker) (codec : Codec) (b : Backend)
    (log : List Call) (function : String) (args : List String) :
    Except String Resp × ReferralPartnerChaincodeBroker × List Call :=
  if function = "init" then
    ((Init t args).1, (Init t args).2, log)
  else if function = "createReferral" then
    (.ok (createReferral t codec b log args).1, t, (createReferral t codec b log args).2)
  else if function = "updateReferralStatus" then
    (.ok (updateReferralStatus t b log args).1, t, (updateReferralStatus t b log args).2)
  else
    (.ok ⟨none, some "Received unknown function invocation"⟩, t, log)

/-- Method `Query` (lines 94-109): dispatch on the function name.  Returns the
outcome, the broker state and the call log. -/
def Query (t : ReferralPartnerChaincodeBroker) (codec : Codec) (b : Backend)
    (log : List Call) (function : String) (args : List String) :
    Except String Resp × ReferralPartnerChaincodeBroker × List Call :=
  if function = "read" then
    (.ok (read t b log args).1, t, (read t b log args).2)
  else if function = "searchByStatus" then
    ((searchByStatus t codec b log args).1, t, (searchByStatus t codec b log args).2.1)
  else if function = "searchByPartner" then
    ((searchByPartner b log args).1, t, (searchByPartner b log args).2)
  else
    (.ok ⟨none, some "Received unknown function query"⟩, t, log)

/-! ## Reference definitions and test data -/

/-- Reference merge step, following the specification: scan `rs` in order and
append a record exactly when no record accumulated so far has the same
`ReferralId`. -/
def appendNovel : List CustomerReferral → List CustomerReferral → List CustomerReferral
  | acc, [] => acc
  | acc, r :: rs =>
    if ∀ a ∈ acc, a.ReferralId ≠ r.ReferralId then appendNovel (acc ++ [r]) rs
    else appendNovel acc rs

/-- Reference merge, following the specification: the whole retail list, then
the novel commercial records, then the novel banking records. -/
def referenceMerge (retail commercial banking : List CustomerReferral) :
    List CustomerReferral :=
  appendNovel (appendNovel retail commercial) banking

/-- A referral record with the given identifier, status and department tags,
all other fields empty. -/
def mkReferral (referralId status : String) (departments : List String) : CustomerReferral :=
  ⟨referralId, "", "", "", "", departments, 0, status, ⟨"", "", "", "", ""⟩⟩

/-- A broker configured with the identifiers `retail`, `commercial`, `banking`. -/
def demoBroker : ReferralPartnerChaincodeBroker :=
  ⟨"retail", "commercial", "banking"⟩

/-- The retail probe of `getReferralPartner`: the backend's answer to the
`Query` call issued first. -/
def probe1 (t : ReferralPartnerChaincodeBroker) (b : Backend) (log : List Call)
    (args : List String) : Resp :=
  b log ⟨t.RetailChaincode, "Query", args⟩

/-- The commercial probe: the answer to the `Query` call issued after the
retail probe. -/
def probe2 (t : ReferralPartnerChaincodeBroker) (b : Backend) (log : List Call)
    (args : List String) : Resp :=
  b (log ++ [⟨t.RetailChaincode, "Query", args⟩]) ⟨t.CommercialChaincode, "Query", args⟩

/-- The banking probe: the answer to the `Query` call issued after the retail
and commercial probes. -/
def probe3 (t : ReferralPartnerChaincodeBroker) (b : Backend) (log : List Call)
    (args : List String) : Resp :=
  b (log ++ [⟨t.RetailChaincode, "Query", args⟩] ++ [⟨t.CommercialChaincode, "Query", args⟩])
    ⟨t.BankingChaincode, "Query", args⟩

/-- The test of lines 144-146: no error, a non-nil byte slice, and text that
does not contain the sentinel. -/
def isHit (r : Resp) : Bool :=
  decide (r.bytes ≠ none ∧ r.err = none ∧
    stringsContains (BytesToString r.bytes) "Did not find entry" = false)

/-- A hit in the specification's words: no error, non-empty bytes, and text
that does not contain the sentinel. -/
def isHitNonEmpty (r : Resp) : Bool :=
  decide (r.err = none ∧ BytesToString r.bytes ≠ "" ∧
    stringsContains (BytesToString r.bytes) "Did not find entry" = false)

/-- The first partition, in the order retail, commercial, banking, whose probe
satisfies `hit`, following the specification of the resolver. -/
def firstHit (hit : Resp → Bool) (t : ReferralPartnerChaincodeBroker) (b : Backend)
    (log : List Call) (args : List String) : Option String :=
  if hit (probe1 t b log args) then some t.RetailChaincode
  else if hit (probe2 t b log args) then some t.CommercialChaincode
  else if hit (probe3 t b log args) then some t.BankingChaincode
  else none

/-- A backend that answers by partner only: `retail`, `commercial` and
`banking` give the three responses, any other chaincode gives nil. -/
def fixedBackend (retail commercial banking : Resp) : Backend :=
  fun _ c =>
    if c.chaincode = "retail" then retail
    else if c.chaincode = "commercial" then commercial
    else if c.chaincode = "banking" then banking
    else ⟨none, none⟩

/-- The partition a department tag is routed to: the three case-sensitive
literals of lines 222-229; any other tag has none. -/
def partnerOfTag (t : ReferralPartnerChaincodeBroker) (d : String) : Option String :=
  if d = "RETAIL" then some t.RetailChaincode
  else if d = "COMMERCIAL" then some t.CommercialChaincode
  else if d = "BANKING" then some t.BankingChaincode
  else none

/-- A department tag is recognized when it is exactly one of the three
literals. -/
def isRecognizedTag (d : String) : Bool :=
  decide (d = "RETAIL" ∨ d = "COMMERCIAL" ∨ d = "BANKING")

/-- The write calls of a create: one `Invoke` with the original args per
recognized tag, in the order of `Departments`. -/
def writeCalls (t : ReferralPartnerChaincodeBroker) (args : List String)
    (departments : List String) : List Call :=
  (departments.filterMap (partnerOfTag t)).map (fun p => ⟨p, "Invoke", args⟩)

/-- The position of the first call that the backend answers with an error when
`calls` are issued one after the other starting from `log`; `none` when every
call succeeds. -/
def firstFailure (b : Backend) : List Call → List Call → Option Nat
  | _, [] => none
  | log, c :: cs =>
    if (b log c).err ≠ none then some 0
    else (firstFailure b (log ++ [c]) cs).map (fun n => n + 1)

/-- Issues `calls` one after the other, stopping at the first error with the
message `msg`; otherwise returns the bytes of the last call (`valAsbytes` if
there is none) and nil error. -/
def issueWrites (b : Backend) (msg : String) :
    List Call → Option String → List Call → Resp × List Call
  | [], valAsbytes, log => (⟨valAsbytes, none⟩, log)
  | c :: cs, _, log =>
    if (b log c).err ≠ none then (⟨some msg, (b log c).err⟩, log ++ [c])
    else issueWrites b msg cs (b log c).bytes (log ++ [c])

/-- The message returned with a failed write (line 233). -/
def indexFailureMessage (referralData : String) : String :=
  "Count not index the bytes by department from the value: " ++ referralData ++
    " on the ledger"

/-- A codec for test data: three payloads decode to a referral with the
department tags they name, three texts decode to lists of referrals, and
everything else fails to decode. -/
def demoCodec : Codec where
  unmarshalReferral := fun s =>
    if s = "RETAIL,COMMERCIAL" then .ok (mkReferral "R1" "new" ["RETAIL", "COMMERCIAL"])
    else if s = "INSURANCE" then .ok (mkReferral "R1" "new" ["INSURANCE"])
    else if s = "retail,INSURANCE,BANKING" then
      .ok (mkReferral "R1" "new" ["retail", "INSURANCE", "BANKING"])
    else .error "invalid character"
  unmarshalReferrals := fun s =>
    if s = "[R1,R2]" then .ok [mkReferral "R1" "open" [], mkReferral "R2" "open" []]
    else if s = "[R2,R3]" then .ok [mkReferral "R2" "open" [], mkReferral "R3" "open" []]
    else if s = "[]" then .ok []
    else .error "invalid character"

/-- The retail response of `searchByStatus`: the backend's answer to the
`Invoke` call issued first. -/
def searchResponse1 (t : ReferralPartnerChaincodeBroker) (b : Backend) (log : List Call)
    (args : List String) : Resp :=
  b log ⟨t.RetailChaincode, "Invoke", args⟩

/-- The commercial response of `searchByStatus`, issued after the retail
call. -/
def searchResponse2 (t : ReferralPartnerChaincodeBroker) (b : Backend) (log : List Call)
    (args : List String) : Resp :=
  b (log ++ [⟨t.RetailChaincode, "Invoke", args⟩]) ⟨t.CommercialChaincode, "Invoke", args⟩

/-- The banking response of `searchByStatus`, issued after the retail and
commercial calls. -/
def searchResponse3 (t : ReferralPartnerChaincodeBroker) (b : Backend) (log : List Call)
    (args : List String) : Resp :=
  b (log ++ [⟨t.RetailChaincode, "Invoke", args⟩] ++ [⟨t.CommercialChaincode, "Invoke", args⟩])
    ⟨t.BankingChaincode, "Invoke", args⟩

/-- A backend whose answers change over time: nil bytes and no error for the
first three calls, the bytes `record` afterwards. -/
def lateBackend : Backend :=
  fun log _ => if log.length < 3 then ⟨none, none⟩ else ⟨some "record", none⟩

/-- The three probe calls of the resolver, in the fixed order retail,
commercial, banking. -/
def probeCalls (t : ReferralPartnerChaincodeBroker) (args : List String) : List Call :=
  [⟨t.RetailChaincode, "Query", args⟩, ⟨t.CommercialChaincode, "Query", args⟩,
   ⟨t.BankingChaincode, "Query", args⟩]

/-- The length of the prefix of the probe order that ends at the first
partition reporting a hit; all three when none reports a hit. -/
def probesIssued (t : ReferralPartnerChaincodeBroker) (b : Backend) (log : List Call)
    (args : List String) : Nat :=
  if isHit (probe1 t b log args) then 1
  else if isHit (probe2 t b log args) then 2
  else 3

/-- A backend that misses every `Query` (nil bytes, no error) and answers
every other call with the bytes `updated`. -/
def queryMissBackend : Backend :=
  fun _ c => if c.function = "Query" then ⟨none, none⟩ else ⟨some "updated", none⟩

/-- Whether a response decodes as a list of referrals. -/
def decodes (codec : Codec) (r : Resp) : Bool :=
  match codec.unmarshalReferrals (BytesToString r.bytes) with
  | .ok _ => true
  | .error _ => false

/-- The three calls of a search, in the fixed order retail, commercial,
banking. -/
def searchCalls (t : ReferralPartnerChaincodeBroker) (args : List String) : List Call :=
  [⟨t.RetailChaincode, "Invoke", args⟩, ⟨t.CommercialChaincode, "Invoke", args⟩,
   ⟨t.BankingChaincode, "Invoke", args⟩]

/-- The length of the prefix of the search order that ends at the first
partition whose response fails to decode; all three when the retail and
commercial responses decode. -/
def searchCallsIssued (t : ReferralPartnerChaincodeBroker) (codec : Codec) (b : Backend)
    (log : List Call) (args : List String) : Nat :=
  if decodes codec (searchResponse1 t b log args) = false then 1
  else if decodes codec (searchResponse2 t b log args) = false then 2
  else 3

/-- A codec for test data whose only decodable payload names the tag `RETAIL`
twice. -/
def duplicateTagCodec : Codec where
  unmarshalReferral := fun s =>
    if s = "RETAIL,RETAIL" then .ok (mkReferral "R1" "new" ["RETAIL", "RETAIL"])
    else .error "invalid character"
  unmarshalReferrals := fun _ => .error "invalid character"

/-! ## Merge loops -/

theorem matchFoundLoop_foldl (referralId : String) (l : List CustomerReferral) (init : Bool) :
    l.foldl (fun matchFound r => if referralId = r.ReferralId then true else matchFound) init
      = (init || l.any (fun r => decide (referralId = r.ReferralId))) := by
  induction l generalizing init with
  | nil => simp
  | cons r l ih =>
    simp only [List.foldl_cons, List.any_cons, ih]
    by_cases h : referralId = r.ReferralId <;> simp [h]

theorem matchFoundLoop_eq_false_iff (referralId : String) (l : List CustomerReferral) :
    matchFoundLoop referralId l = false ↔ ∀ a ∈ l, a.ReferralId ≠ referralId := by
  unfold matchFoundLoop
  rw [matchFoundLoop_foldl]
  simp only [Bool.false_or, List.any_eq_false, decide_eq_true_eq]
  constructor
  · intro h a ha e
    exact h a ha e.symm
  · intro h a ha e
    exact h a ha e.symm

theorem mergeLoop_eq_appendNovel (acc matching : List CustomerReferral) :
    mergeLoop acc matching = appendNovel acc matching := by
  induction matching generalizing acc with
  | nil => rfl
  | cons m ms ih =>
    have step : mergeLoop acc (m :: ms)
        = mergeLoop (if matchFoundLoop m.ReferralId acc = false then acc ++ [m] else acc) ms := rfl
    rw [step, ih]
    by_cases h : ∀ a ∈ acc, a.ReferralId ≠ m.ReferralId
    · rw [if_pos ((matchFoundLoop_eq_false_iff _ _).2 h)]
      simp only [appendNovel, if_pos h]
    · rw [if_neg (fun hf => h ((matchFoundLoop_eq_false_iff _ _).1 hf))]
      simp only [appendNovel, if_neg h]

theorem appendNovel_nodup (acc rs : List CustomerReferral)
    (h : (acc.map (fun r => r.ReferralId)).Nodup) :
    ((appendNovel acc rs).map (fun r => r.ReferralId)).Nodup := by
  induction rs generalizing acc with
  | nil => exact h
  | cons r rs ih =>
    by_cases hn : ∀ a ∈ acc, a.ReferralId ≠ r.ReferralId
    · simp only [appendNovel, if_pos hn]
      apply ih
      rw [List.map_append, List.nodup_append]
      refine ⟨h, by simp, ?_⟩
      intro x hx hy
      simp only [List.map_cons, List.map_nil, List.mem_singleton] at hy
      obtain ⟨a, ha, rfl⟩ := List.mem_map.1 hx
      exact hn a ha hy
    · simp only [appendNovel, if_neg hn]
      exact ih acc h

/-- C2: the list accumulated by the merge loops of `searchByStatus` equals the
reference merge (whole retail list, then each commercial and each banking
record appended exactly when no accumulated record has its `ReferralId`); on
retail `[R1,R2]`, commercial `[R2,R3]`, banking `[]` the identifiers are
`[R1,R2,R3]` in that order. -/
theorem searchResults_eq_referenceMerge :
    (∀ retail commercial banking : List CustomerReferral,
      searchResults retail commercial banking = referenceMerge retail commercial banking) ∧
    (searchResults [mkReferral "R1" "a" [], mkReferral "R2" "a" []]
        [mkReferral "R2" "b" [], mkReferral "R3" "b" []] []).map (fun r => r.ReferralId)
      = ["R1", "R2", "R3"] := by
  refine ⟨?_, by decide⟩
  intro retail commercial banking
  simp only [searchResults, referenceMerge, List.nil_append, mergeLoop_eq_appendNovel]

/-- C3 (as stated, refuted): with retail list `[R1, R1]` the merged list keeps
both records, so two records of the merged list share a `ReferralId`. -/
theorem searchResults_duplicate_retail :
    ¬ ((searchResults [mkReferral "R1" "a" [], mkReferral "R1" "b" []] [] []).map
        (fun r => r.ReferralId)).Nodup := by
  decide

/-- C3 (amended): when the retail list has pairwise distinct `ReferralId`s,
no two records of the merged list built by `searchByStatus` have the same
`ReferralId`. -/
theorem searchResults_nodup (retail commercial banking : List CustomerReferral)
    (h : (retail.map (fun r => r.ReferralId)).Nodup) :
    ((searchResults retail commercial banking).map (fun r => r.ReferralId)).Nodup := by
  simp only [searchResults, List.nil_append, mergeLoop_eq_appendNovel]
  exact appendNovel_nodup _ _ (appendNovel_nodup _ _ h)

theorem searchResults_nodup_witness :
    (([mkReferral "R1" "a" [], mkReferral "R2" "a" []].map (fun r => r.ReferralId)).Nodup) ∧
    ((searchResults [mkReferral "R1" "a" [], mkReferral "R2" "a" []]
        [mkReferral "R2" "b" [], mkReferral "R2" "c" [], mkReferral "R3" "b" []]
        [mkReferral "R3" "d" [], mkReferral "R4" "d" []]).map (fun r => r.ReferralId)).Nodup :=
  ⟨by decide, searchResults_nodup _ _ _ (by decide)⟩

/-! ## Partner resolution -/

theorem getReferralPartner_val (t : ReferralPartnerChaincodeBroker) (b : Backend)
    (log : List Call) (args : List String) :
    (getReferralPartner t b log args).1 =
      if isHit (probe1 t b log args) then (none, t.RetailChaincode)
      else if isHit (probe2 t b log args) then (none, t.CommercialChaincode)
      else if isHit (probe3 t b log args) then (none, t.BankingChaincode)
      else ((probe3 t b log args).err, "") := by
  simp only [getReferralPartner, InvokeChaincode, isHit, probe1, probe2, probe3,
    decide_eq_true_eq]
  split_ifs <;> rfl

/-- C4 (as stated, refuted): the retail probe answers with an empty, non-nil
byte slice and no error, the commercial probe with a record.  With a hit
requiring non-empty bytes the first hit is the commercial partition, but
`getReferralPartner` returns the retail identifier. -/
theorem getReferralPartner_empty_bytes_hit :
    firstHit isHitNonEmpty demoBroker
        (fixedBackend ⟨some "", none⟩ ⟨some "record", none⟩ ⟨none, none⟩) [] ["K1"]
      = some "commercial" ∧
    (getReferralPartner demoBroker
        (fixedBackend ⟨some "", none⟩ ⟨some "record", none⟩ ⟨none, none⟩) [] ["K1"]).1
      = (none, "retail") := by
  decide

/-- C4 (amended): `getReferralPartner` returns, with nil error, the identifier
of the first partition, in the order retail, commercial, banking, whose Query
response is a hit, where a hit is a response with no error, non-nil bytes
(possibly of length zero) and text that does not contain
"Did not find entry". -/
theorem getReferralPartner_first_hit (t : ReferralPartnerChaincodeBroker) (b : Backend)
    (log : List Call) (args : List String) (p : String)
    (h : firstHit isHit t b log args = some p) :
    (getReferralPartner t b log args).1 = (none, p) := by
  rw [getReferralPartner_val]
  unfold firstHit at h
  split_ifs at h ⊢ <;> simp_all

theorem getReferralPartner_first_hit_witness :
    firstHit isHit demoBroker
        (fixedBackend ⟨some "Did not find entry for key: K1", none⟩ ⟨none, some "down"⟩
          ⟨some "record", none⟩) [] ["K1"] = some "banking" ∧
    (getReferralPartner demoBroker
        (fixedBackend ⟨some "Did not find entry for key: K1", none⟩ ⟨none, some "down"⟩
          ⟨some "record", none⟩) [] ["K1"]).1 = (none, "banking") :=
  ⟨by decide, getReferralPartner_first_hit _ _ _ _ _ (by decide)⟩

/-- C10: when no probe is a hit `getReferralPartner` returns the empty
partition identifier; the error it returns is `e` if and only if no probe is a
hit and the banking probe returned the error `e`, so errors of the retail and
commercial probes are never returned. -/
theorem getReferralPartner_not_found (t : ReferralPartnerChaincodeBroker) (b : Backend)
    (log : List Call) (args : List String) :
    (firstHit isHit t b log args = none → (getReferralPartner t b log args).1.2 = "") ∧
    (∀ e : String, (getReferralPartner t b log args).1.1 = some e ↔
      (firstHit isHit t b log args = none ∧ (probe3 t b log args).err = some e)) := by
  rw [getReferralPartner_val]
  unfold firstHit
  split_ifs <;> simp

theorem getReferralPartner_not_found_witness :
    (getReferralPartner demoBroker
        (fixedBackend ⟨none, some "retail down"⟩ ⟨none, some "commercial down"⟩
          ⟨none, some "banking down"⟩) [] ["K1"]).1.2 = "" ∧
    (getReferralPartner demoBroker
        (fixedBackend ⟨none, some "retail down"⟩ ⟨none, some "commercial down"⟩
          ⟨none, some "banking down"⟩) [] ["K1"]).1.1 = some "banking down" :=
  ⟨(getReferralPartner_not_found _ _ _ _).1 (by decide),
   ((getReferralPartner_not_found _ _ _ _).2 "banking down").2 ⟨by decide, by decide⟩⟩

/-! ## Read -/

/-- C7 (as stated, refuted): no partition holds the key and `read` does not
return a success response with the sentinel.  First input: the retail and
commercial probes answer with the sentinel and the banking probe fails; `read`
returns the banking probe's error.  Second input: the retail identifier is the
empty string and no probe is a hit or an error; `read` queries the retail
partition once more and returns its bytes, which lack the sentinel. -/
theorem read_absent_key_without_sentinel :
    (firstHit isHit demoBroker
        (fixedBackend ⟨some "Did not find entry for key: NOKEY", none⟩
          ⟨some "Did not find entry for key: NOKEY", none⟩ ⟨none, some "ledger down"⟩)
        [] ["NOKEY"] = none ∧
      (read demoBroker
        (fixedBackend ⟨some "Did not find entry for key: NOKEY", none⟩
          ⟨some "Did not find entry for key: NOKEY", none⟩ ⟨none, some "ledger down"⟩)
        [] ["NOKEY"]).1
      = ⟨some "\x7b\"Error\":\"Failed to get state for \"\x7d", some "ledger down"⟩) ∧
    (firstHit isHit ⟨"", "commercial", "banking"⟩ lateBackend [] ["NOKEY"] = none ∧
      (read ⟨"", "commercial", "banking"⟩ lateBackend [] ["NOKEY"]).1
        = ⟨some "record", none⟩ ∧
      stringsContains "record" "Did not find entry" = false) := by
  decide

/-- C7 (amended): for one-element args, when no partition identifier is the
empty string, no probe is a hit and the banking probe returned no error,
`read` returns nil error and bytes that contain the sentinel text
"Did not find entry". -/
theorem read_not_found (t : ReferralPartnerChaincodeBroker) (b : Backend)
    (log : List Call) (key : String)
    (hr : t.RetailChaincode ≠ "") (hc : t.CommercialChaincode ≠ "")
    (hb : t.BankingChaincode ≠ "")
    (hno : firstHit isHit t b log [key] = none)
    (herr : (probe3 t b log [key]).err = none) :
    (read t b log [key]).1 = ⟨some "Did not find entry for key: ", none⟩ ∧
    stringsContains (BytesToString (read t b log [key]).1.bytes) "Did not find entry"
      = true := by
  have hv : (getReferralPartner t b log [key]).1 = (none, "") := by
    rw [getReferralPartner_val]
    unfold firstHit at hno
    split_ifs at hno ⊢
    rw [herr]
  have h1 : (read t b log [key]).1 = ⟨some "Did not find entry for key: ", none⟩ := by
    simp only [read, hv, List.length_singleton, ne_eq, not_true_eq_false, if_false,
      if_neg hr.symm, if_neg hc.symm, if_neg hb.symm, if_true]
    rfl
  refine ⟨h1, ?_⟩
  rw [h1]
  decide

theorem read_not_found_witness :
    (read demoBroker
        (fixedBackend ⟨some "Did not find entry for key: NOKEY", none⟩ ⟨none, some "down"⟩
          ⟨none, none⟩) [] ["NOKEY"]).1 = ⟨some "Did not find entry for key: ", none⟩ ∧
    stringsContains (BytesToString (read demoBroker
        (fixedBackend ⟨some "Did not find entry for key: NOKEY", none⟩ ⟨none, some "down"⟩
          ⟨none, none⟩) [] ["NOKEY"]).1.bytes) "Did not find entry" = true :=
  read_not_found _ _ _ _ (by decide) (by decide) (by decide) (by decide) (by decide)

/-! ## Create -/

theorem createReferralLoop_eq_issueWrites (t : ReferralPartnerChaincodeBroker) (b : Backend)
    (args : List String) (referralData : String) (ds : List String)
    (valAsbytes : Option String) (log : List Call) :
    createReferralLoop t b args referralData ds valAsbytes none log
      = issueWrites b (indexFailureMessage referralData) (writeCalls t args ds)
          valAsbytes log := by
  induction ds generalizing valAsbytes log with
  | nil => rfl
  | cons d ds ih =>
    by_cases h1 : d = "RETAIL"
    · by_cases he : (b log ⟨t.RetailChaincode, "Invoke", args⟩).err = none
      · simp [createReferralLoop, writeCalls, partnerOfTag, issueWrites, InvokeChaincode,
          h1, he, indexFailureMessage] at ih ⊢
        exact ih _ _
      · simp [createReferralLoop, writeCalls, partnerOfTag, issueWrites, InvokeChaincode,
          h1, he, indexFailureMessage]
    · by_cases h2 : d = "COMMERCIAL"
      · by_cases he : (b log ⟨t.CommercialChaincode, "Invoke", args⟩).err = none
        · simp [createReferralLoop, writeCalls, partnerOfTag, issueWrites, InvokeChaincode,
            h1, h2, he, indexFailureMessage] at ih ⊢
          exact ih _ _
        · simp [createReferralLoop, writeCalls, partnerOfTag, issueWrites, InvokeChaincode,
            h1, h2, he, indexFailureMessage]
      · by_cases h3 : d = "BANKING"
        · by_cases he : (b log ⟨t.BankingChaincode, "Invoke", args⟩).err = none
          · simp [createReferralLoop, writeCalls, partnerOfTag, issueWrites, InvokeChaincode,
              h1, h2, h3, he, indexFailureMessage] at ih ⊢
            exact ih _ _
          · simp [createReferralLoop, writeCalls, partnerOfTag, issueWrites, InvokeChaincode,
              h1, h2, h3, he, indexFailureMessage]
        · simp [createReferralLoop, writeCalls, partnerOfTag, h1, h2, h3] at ih ⊢
          exact ih _ _

theorem issueWrites_of_firstFailure (b : Backend) (msg : String) (cs : List Call)
    (valAsbytes : Option String) (log : List Call) (n : Nat)
    (h : firstFailure b log cs = some n) :
    ∃ c e, cs[n]? = some c ∧ (b (log ++ cs.take n) c).err = some e ∧
      issueWrites b msg cs valAsbytes log = (⟨some msg, some e⟩, log ++ cs.take (n + 1)) := by
  induction cs generalizing valAsbytes log n with
  | nil => simp [firstFailure] at h
  | cons c cs ih =>
    by_cases he : (b log c).err = none
    · simp only [firstFailure, he, ne_eq, not_true_eq_false, if_false, Option.map_eq_some'] at h
      obtain ⟨m, hm, rfl⟩ := h
      obtain ⟨c', e, h1, h2, h3⟩ := ih (b log c).bytes (log ++ [c]) m hm
      refine ⟨c', e, by simpa using h1, by simpa using h2, ?_⟩
      simp only [issueWrites, he, ne_eq, not_true_eq_false, if_false, h3]
      simp
    · simp only [firstFailure, ne_eq, he, not_false_eq_true, if_true, Option.some.injEq] at h
      subst h
      obtain ⟨e, hsome⟩ := Option.ne_none_iff_exists'.1 he
      refine ⟨c, e, by simp, by simpa using hsome, ?_⟩
      simp [issueWrites, hsome]

theorem issueWrites_of_no_failure (b : Backend) (msg : String) (cs : List Call)
    (valAsbytes : Option String) (log : List Call) (hne : cs ≠ [])
    (h : firstFailure b log cs = none) :
    issueWrites b msg cs valAsbytes log
      = (⟨(b (log ++ cs.dropLast) (cs.getLast hne)).bytes, none⟩, log ++ cs) := by
  induction cs generalizing valAsbytes log with
  | nil => exact absurd rfl hne
  | cons c cs ih =>
    by_cases he : (b log c).err = none
    · simp only [firstFailure, he, ne_eq, not_true_eq_false, if_false, Option.map_eq_none'] at h
      simp only [issueWrites, he, ne_eq, not_true_eq_false, if_false]
      cases cs with
      | nil => simp [issueWrites]
      | cons c2 cs2 =>
        rw [ih (b log c).bytes (log ++ [c]) (List.cons_ne_nil _ _) h]
        simp
    · simp [firstFailure, he] at h

theorem containsChars_append (p v q : List Char) : containsChars (p ++ v ++ q) v = true := by
  induction p with
  | nil =>
    cases hv : [] ++ v ++ q with
    | nil =>
      have : v = [] := by
        simp only [List.nil_append, List.append_eq_nil] at hv
        exact hv.1
      simp [containsChars, this]
    | cons x xs =>
      have hp : v.isPrefixOf (x :: xs) = true := by
        rw [← hv, List.isPrefixOf_iff_prefix]
        simp
      simp [containsChars, hp]
  | cons x p ih =>
    have : x :: p ++ v ++ q = x :: (p ++ v ++ q) := by simp
    rw [this, containsChars, ih]
    simp

theorem stringsContains_payload (a v c : String) : stringsContains (a ++ v ++ c) v = true := by
  simp only [stringsContains, String.data_append]
  exact containsChars_append _ _ _

theorem writeCalls_filter (t : ReferralPartnerChaincodeBroker) (args : List String)
    (ds : List String) :
    writeCalls t args (ds.filter isRecognizedTag) = writeCalls t args ds := by
  induction ds with
  | nil => rfl
  | cons d ds ih =>
    unfold writeCalls at ih ⊢
    by_cases h1 : d = "RETAIL"
    · simp [List.filter_cons, isRecognizedTag, partnerOfTag, h1] at ih ⊢
      exact ih
    · by_cases h2 : d = "COMMERCIAL"
      · simp [List.filter_cons, isRecognizedTag, partnerOfTag, h2] at ih ⊢
        exact ih
      · by_cases h3 : d = "BANKING"
        · simp [List.filter_cons, isRecognizedTag, partnerOfTag, h3] at ih ⊢
          exact ih
        · simp [List.filter_cons, isRecognizedTag, partnerOfTag, h1, h2, h3] at ih ⊢
          exact ih

theorem createReferral_eq_issueWrites (t : ReferralPartnerChaincodeBroker) (codec : Codec)
    (b : Backend) (log : List Call) (k v : String) (r : CustomerReferral)
    (hdec : codec.unmarshalReferral v = .ok r) :
    createReferral t codec b log [k, v]
      = issueWrites b (indexFailureMessage v) (writeCalls t [k, v] r.Departments) none log := by
  simp only [createReferral, hdec]
  exact createReferralLoop_eq_issueWrites _ _ _ _ _ _ _

/-- C5: for a two-argument create with a decodable payload in which the write
at position `n` of the recognized tags is the first to fail, the calls issued
are exactly the writes for the recognized tags up to and including that one
(nothing after it, nothing undoing the earlier ones), and the call returns the
backend's error together with bytes that contain the payload `args[1]`. -/
theorem createReferral_partial_write (t : ReferralPartnerChaincodeBroker) (codec : Codec)
    (b : Backend) (log : List Call) (k v : String) (r : CustomerReferral) (n : Nat)
    (hdec : codec.unmarshalReferral v = .ok r)
    (hfail : firstFailure b log (writeCalls t [k, v] r.Departments) = some n) :
    ∃ c e, (writeCalls t [k, v] r.Departments)[n]? = some c ∧
      (b (log ++ (writeCalls t [k, v] r.Departments).take n) c).err = some e ∧
      createReferral t codec b log [k, v]
        = (⟨some (indexFailureMessage v), some e⟩,
            log ++ (writeCalls t [k, v] r.Departments).take (n + 1)) ∧
      stringsContains (indexFailureMessage v) v = true := by
  obtain ⟨c, e, h1, h2, h3⟩ :=
    issueWrites_of_firstFailure b (indexFailureMessage v) _ none log n hfail
  refine ⟨c, e, h1, h2, ?_, stringsContains_payload _ _ _⟩
  rw [createReferral_eq_issueWrites t codec b log k v r hdec, h3]

theorem createReferral_partial_write_witness :
    firstFailure (fixedBackend ⟨some "stored", none⟩ ⟨none, some "commercial down"⟩
        ⟨some "stored", none⟩) []
      (writeCalls demoBroker ["K1", "RETAIL,COMMERCIAL"]
        (mkReferral "R1" "new" ["RETAIL", "COMMERCIAL"]).Departments) = some 1 ∧
    ∃ c e, (writeCalls demoBroker ["K1", "RETAIL,COMMERCIAL"]
        (mkReferral "R1" "new" ["RETAIL", "COMMERCIAL"]).Departments)[1]? = some c ∧
      ((fixedBackend ⟨some "stored", none⟩ ⟨none, some "commercial down"⟩
          ⟨some "stored", none⟩)
        ([] ++ (writeCalls demoBroker ["K1", "RETAIL,COMMERCIAL"]
          (mkReferral "R1" "new" ["RETAIL", "COMMERCIAL"]).Departments).take 1) c).err
        = some e ∧
      createReferral demoBroker demoCodec
          (fixedBackend ⟨some "stored", none⟩ ⟨none, some "commercial down"⟩
            ⟨some "stored", none⟩) [] ["K1", "RETAIL,COMMERCIAL"]
        = (⟨some (indexFailureMessage "RETAIL,COMMERCIAL"), some e⟩,
            [] ++ (writeCalls demoBroker ["K1", "RETAIL,COMMERCIAL"]
              (mkReferral "R1" "new" ["RETAIL", "COMMERCIAL"]).Departments).take (1 + 1)) ∧
      stringsContains (indexFailureMessage "RETAIL,COMMERCIAL") "RETAIL,COMMERCIAL" = true :=
  ⟨by decide, createReferral_partial_write _ _ _ _ _ _ _ _ rfl (by decide)⟩

/-- C8: for a two-argument create with a decodable payload and at least one
recognized department tag, if every issued write succeeds the call returns nil
error and exactly the bytes of the last write call (the one for the last
recognized tag), having issued one write per recognized tag in order. -/
theorem createReferral_success_last_write (t : ReferralPartnerChaincodeBroker)
    (codec : Codec) (b : Backend) (log : List Call) (k v : String) (r : CustomerReferral)
    (hdec : codec.unmarshalReferral v = .ok r)
    (hne : writeCalls t [k, v] r.Departments ≠ [])
    (hok : firstFailure b log (writeCalls t [k, v] r.Departments) = none) :
    createReferral t codec b log [k, v]
      = (⟨(b (log ++ (writeCalls t [k, v] r.Departments).dropLast)
            ((writeCalls t [k, v] r.Departments).getLast hne)).bytes, none⟩,
          log ++ writeCalls t [k, v] r.Departments) := by
  rw [createReferral_eq_issueWrites t codec b log k v r hdec]
  exact issueWrites_of_no_failure b _ _ none log hne hok

theorem createReferral_success_last_write_witness :
    createReferral demoBroker demoCodec
        (fixedBackend ⟨some "retail stored", none⟩ ⟨some "commercial stored", none⟩
          ⟨some "banking stored", none⟩) [] ["K1", "RETAIL,COMMERCIAL"]
      = (⟨some "commercial stored", none⟩,
          [⟨"retail", "Invoke", ["K1", "RETAIL,COMMERCIAL"]⟩,
           ⟨"commercial", "Invoke", ["K1", "RETAIL,COMMERCIAL"]⟩]) :=
  createReferral_success_last_write demoBroker demoCodec
    (fixedBackend ⟨some "retail stored", none⟩ ⟨some "commercial stored", none⟩
      ⟨some "banking stored", none⟩) [] "K1" "RETAIL,COMMERCIAL"
    (mkReferral "R1" "new" ["RETAIL", "COMMERCIAL"]) rfl (by decide) (by decide)

/-- C9: for a two-argument create with a decodable payload, the tags that are
not exactly "RETAIL", "COMMERCIAL" or "BANKING" cause no backend call and no
error: the call behaves as the routing loop run on the recognized tags alone;
and when no tag is recognized it returns nil bytes and nil error with the call
log unchanged. -/
theorem createReferral_unrecognized_skipped (t : ReferralPartnerChaincodeBroker)
    (codec : Codec) (b : Backend) (log : List Call) (k v : String) (r : CustomerReferral)
    (hdec : codec.unmarshalReferral v = .ok r) :
    createReferral t codec b log [k, v]
      = createReferralLoop t b [k, v] v (r.Departments.filter isRecognizedTag) none none log ∧
    ((∀ d ∈ r.Departments, isRecognizedTag d = false) →
      createReferral t codec b log [k, v] = (⟨none, none⟩, log)) := by
  have h1 : createReferral t codec b log [k, v]
      = createReferralLoop t b [k, v] v (r.Departments.filter isRecognizedTag) none none log := by
    rw [createReferral_eq_issueWrites t codec b log k v r hdec,
      createReferralLoop_eq_issueWrites, writeCalls_filter]
  refine ⟨h1, ?_⟩
  intro hall
  have hnil : r.Departments.filter isRecognizedTag = [] := by
    rw [List.filter_eq_nil_iff]
    intro d hd
    simp [hall d hd]
  rw [h1, hnil]
  rfl

theorem createReferral_unrecognized_skipped_witness :
    createReferral demoBroker demoCodec
        (fixedBackend ⟨none, some "down"⟩ ⟨none, some "down"⟩ ⟨none, some "down"⟩)
        [] ["K1", "INSURANCE"] = (⟨none, none⟩, []) ∧
    createReferral demoBroker demoCodec
        (fixedBackend ⟨some "retail stored", none⟩ ⟨some "commercial stored", none⟩
          ⟨some "banking stored", none⟩) [] ["K1", "retail,INSURANCE,BANKING"]
      = (⟨some "banking stored", none⟩,
          [⟨"banking", "Invoke", ["K1", "retail,INSURANCE,BANKING"]⟩]) :=
  ⟨(createReferral_unrecognized_skipped demoBroker demoCodec _ [] "K1" "INSURANCE"
      (mkReferral "R1" "new" ["INSURANCE"]) rfl).2 (by decide),
   (createReferral_unrecognized_skipped demoBroker demoCodec _ [] "K1"
      "retail,INSURANCE,BANKING" (mkReferral "R1" "new" ["retail", "INSURANCE", "BANKING"])
      rfl).1.trans (by decide)⟩

/-! ## Search -/

theorem searchByStatus_success (t : ReferralPartnerChaincodeBroker) (codec : Codec)
    (b : Backend) (log : List Call) (args : List String)
    (retail commercial banking : List CustomerReferral)
    (h1 : codec.unmarshalReferrals (BytesToString (searchResponse1 t b log args).bytes)
      = .ok retail)
    (h2 : codec.unmarshalReferrals (BytesToString (searchResponse2 t b log args).bytes)
      = .ok commercial)
    (h3 : codec.unmarshalReferrals (BytesToString (searchResponse3 t b log args).bytes)
      = .ok banking) :
    searchByStatus t codec b log args
      = (.ok ⟨(searchResponse3 t b log args).bytes, none⟩,
          log ++ [⟨t.RetailChaincode, "Invoke", args⟩]
            ++ [⟨t.CommercialChaincode, "Invoke", args⟩]
            ++ [⟨t.BankingChaincode, "Invoke", args⟩],
          some (searchResults retail commercial banking)) := by
  simp only [searchResponse1, searchResponse2, searchResponse3] at h1 h2 h3
  simp only [searchByStatus, InvokeChaincode, h1, h2, h3]
  rfl

theorem searchByStatus_decode_failure (t : ReferralPartnerChaincodeBroker) (codec : Codec)
    (b : Backend) (log : List Call) (a0 : String) (rest : List String)
    (h : (∃ e, codec.unmarshalReferrals
          (BytesToString (searchResponse1 t b log (a0 :: rest)).bytes) = .error e) ∨
        (∃ e, codec.unmarshalReferrals
          (BytesToString (searchResponse2 t b log (a0 :: rest)).bytes) = .error e) ∨
        (∃ e, codec.unmarshalReferrals
          (BytesToString (searchResponse3 t b log (a0 :: rest)).bytes) = .error e)) :
    (searchByStatus t codec b log (a0 :: rest)).1
        = .ok ⟨none, some ("\x7b\"Error\":\"Failed to get state for " ++ a0 ++ "\"\x7d")⟩ ∧
    (searchByStatus t codec b log (a0 :: rest)).2.2 = none := by
  simp only [searchResponse1, searchResponse2, searchResponse3] at h
  simp only [searchByStatus, InvokeChaincode]
  cases h1 : codec.unmarshalReferrals
      (BytesToString (b log ⟨t.RetailChaincode, "Invoke", a0 :: rest⟩).bytes) with
  | error e => exact ⟨rfl, rfl⟩
  | ok l1 =>
    cases h2 : codec.unmarshalReferrals (BytesToString
        (b (log ++ [⟨t.RetailChaincode, "Invoke", a0 :: rest⟩])
          ⟨t.CommercialChaincode, "Invoke", a0 :: rest⟩).bytes) with
    | error e => exact ⟨rfl, rfl⟩
    | ok l2 =>
      cases h3 : codec.unmarshalReferrals (BytesToString
          (b (log ++ [⟨t.RetailChaincode, "Invoke", a0 :: rest⟩]
              ++ [⟨t.CommercialChaincode, "Invoke", a0 :: rest⟩])
            ⟨t.BankingChaincode, "Invoke", a0 :: rest⟩).bytes) with
      | error e => exact ⟨rfl, rfl⟩
      | ok l3 =>
        rw [h1, h2, h3] at h
        simp at h

/-- C1 (code evaluated at the failing input): retail answers `[R1,R2]`,
commercial `[R2,R3]`, banking `[]`.  The merge loops accumulate the
identifiers `[R1,R2,R3]`, but `searchByStatus` returns the banking response
bytes `[]`, which decode to the empty list. -/
theorem searchByStatus_returns_banking_bytes :
    (searchByStatus demoBroker demoCodec
        (fixedBackend ⟨some "[R1,R2]", none⟩ ⟨some "[R2,R3]", none⟩ ⟨some "[]", none⟩)
        [] ["open"]).1 = .ok ⟨some "[]", none⟩ ∧
    (searchByStatus demoBroker demoCodec
        (fixedBackend ⟨some "[R1,R2]", none⟩ ⟨some "[R2,R3]", none⟩ ⟨some "[]", none⟩)
        [] ["open"]).2.2.map (List.map (fun r => r.ReferralId)) = some ["R1", "R2", "R3"] ∧
    demoCodec.unmarshalReferrals "[]" = .ok [] := by
  refine ⟨rfl, by decide, rfl⟩

/-- C6 (code evaluated at the failing input): with empty args, retail and
banking answers that decode and a commercial answer that does not, building
the error message indexes `args[0]` and `searchByStatus` panics instead of
returning an error. -/
theorem searchByStatus_empty_args_panics :
    searchByStatus demoBroker demoCodec
        (fixedBackend ⟨some "[R1,R2]", none⟩ ⟨some "not json", none⟩ ⟨some "[]", none⟩)
        [] []
      = (.error "index out of range",
          [⟨"retail", "Invoke", []⟩, ⟨"commercial", "Invoke", []⟩], none) := by
  rfl

/-! ## Probe calls and status update -/

theorem getReferralPartner_log (t : ReferralPartnerChaincodeBroker) (b : Backend)
    (log : List Call) (args : List String) :
    (getReferralPartner t b log args).2
      = log ++ (probeCalls t args).take (probesIssued t b log args) := by
  simp only [getReferralPartner, InvokeChaincode, isHit, probe1, probe2, probe3,
    probesIssued, probeCalls, decide_eq_true_eq]
  split_ifs <;> simp

/-- C11: the backend calls issued by `getReferralPartner` are exactly the
`Query` calls with the unchanged args to the prefix of retail, commercial,
banking that ends at the first partition reporting a hit (all three when none
does): the last call goes to the partition that is returned, nothing after it
is queried, and every call added is a `Query`, so no `Invoke` is issued. -/
theorem getReferralPartner_probe_calls (t : ReferralPartnerChaincodeBroker) (b : Backend)
    (log : List Call) (args : List String) :
    (getReferralPartner t b log args).2
        = log ++ (probeCalls t args).take (probesIssued t b log args) ∧
    (∀ p, firstHit isHit t b log args = some p →
      ((probeCalls t args).take (probesIssued t b log args)).getLast?
        = some ⟨p, "Query", args⟩) ∧
    (firstHit isHit t b log args = none → probesIssued t b log args = 3) ∧
    (∀ c ∈ (probeCalls t args).take (probesIssued t b log args),
      c.function = "Query" ∧ c.args = args) := by
  refine ⟨getReferralPartner_log t b log args, ?_, ?_, ?_⟩
  · intro p hp
    unfold firstHit at hp
    unfold probesIssued probeCalls
    split_ifs at hp ⊢ <;> simp_all
  · intro hn
    unfold firstHit at hn
    unfold probesIssued
    split_ifs at hn ⊢
    rfl
  · intro c hc
    have hmem := List.mem_of_mem_take hc
    simp only [probeCalls, List.mem_cons, List.mem_singleton, List.not_mem_nil, or_false]
      at hmem
    rcases hmem with h | h | h <;> subst h <;> exact ⟨rfl, rfl⟩

theorem getReferralPartner_probe_calls_witness :
    (getReferralPartner demoBroker
        (fixedBackend ⟨none, some "down"⟩ ⟨some "record", none⟩ ⟨some "record", none⟩)
        [] ["K1"]).2
      = [⟨"retail", "Query", ["K1"]⟩, ⟨"commercial", "Query", ["K1"]⟩] ∧
    ((probeCalls demoBroker ["K1"]).take (probesIssued demoBroker
        (fixedBackend ⟨none, some "down"⟩ ⟨some "record", none⟩ ⟨some "record", none⟩)
        [] ["K1"])).getLast? = some ⟨"commercial", "Query", ["K1"]⟩ ∧
    probesIssued demoBroker
        (fixedBackend ⟨none, none⟩ ⟨none, none⟩ ⟨none, none⟩) [] ["K1"] = 3 :=
  ⟨(getReferralPartner_probe_calls demoBroker _ [] ["K1"]).1.trans (by decide),
   (getReferralPartner_probe_calls demoBroker _ [] ["K1"]).2.1 "commercial" (by decide),
   (getReferralPartner_probe_calls demoBroker _ [] ["K1"]).2.2.1 (by decide)⟩

/-- C12: when `getReferralPartner` resolves the args to a partition `p`,
`updateReferralStatus` issues, after the probes, exactly one further call, an
`Invoke` to `p` with the original args, and returns that call's bytes and
error unchanged. -/
theorem updateReferralStatus_forwards (t : ReferralPartnerChaincodeBroker) (b : Backend)
    (log : List Call) (args : List String) (p : String)
    (h : firstHit isHit t b log args = some p) :
    updateReferralStatus t b log args
      = (b (log ++ (probeCalls t args).take (probesIssued t b log args)) ⟨p, "Invoke", args⟩,
          log ++ (probeCalls t args).take (probesIssued t b log args)
            ++ [⟨p, "Invoke", args⟩]) := by
  have hv : (getReferralPartner t b log args).1 = (none, p) := by
    rw [getReferralPartner_val]
    unfold firstHit at h
    split_ifs at h ⊢ <;> simp_all
  have hmem : p = t.RetailChaincode ∨ p = t.CommercialChaincode ∨ p = t.BankingChaincode := by
    unfold firstHit at h
    split_ifs at h <;> simp_all
  simp only [updateReferralStatus, hv, getReferralPartner_log, InvokeChaincode]
  by_cases h1 : p = t.RetailChaincode
  · simp [h1]
  · by_cases h2 : p = t.CommercialChaincode
    · rw [if_neg h1, if_pos h2]; simp [h2]
    · have h3 : p = t.BankingChaincode := by tauto
      rw [if_neg h1, if_neg h2, if_pos h3]; simp [h3]

theorem updateReferralStatus_forwards_witness :
    updateReferralStatus demoBroker
        (fun _ c => if c.function = "Invoke" then ⟨some "updated", none⟩
          else if c.chaincode = "commercial" then ⟨some "record", none⟩ else ⟨none, none⟩)
        [] ["K1", "closed"]
      = (⟨some "updated", none⟩,
          [⟨"retail", "Query", ["K1", "closed"]⟩, ⟨"commercial", "Query", ["K1", "closed"]⟩,
           ⟨"commercial", "Invoke", ["K1", "closed"]⟩]) :=
  (updateReferralStatus_forwards demoBroker _ [] ["K1", "closed"] "commercial"
    (by decide)).trans (by decide)

/-- C13 (as stated, refuted): the retail identifier is the empty string and no
probe is a hit; the not-found value is the empty string too, so
`updateReferralStatus` issues an `Invoke` to the retail partition and returns
its bytes. -/
theorem updateReferralStatus_empty_identifier :
    firstHit isHit ⟨"", "commercial", "banking"⟩ queryMissBackend [] ["K1", "closed"] = none ∧
    updateReferralStatus ⟨"", "commercial", "banking"⟩ queryMissBackend [] ["K1", "closed"]
      = (⟨some "updated", none⟩,
          [⟨"", "Query", ["K1", "closed"]⟩, ⟨"commercial", "Query", ["K1", "closed"]⟩,
           ⟨"banking", "Query", ["K1", "closed"]⟩, ⟨"", "Invoke", ["K1", "closed"]⟩]) := by
  decide

/-- C13 (amended): when no partition identifier is the empty string and no
probe is a hit, `updateReferralStatus` issues the three `Query` probes and no
other call, so no `Invoke`, and returns nil bytes (with the banking probe's
error). -/
theorem updateReferralStatus_not_found (t : ReferralPartnerChaincodeBroker) (b : Backend)
    (log : List Call) (args : List String)
    (hr : t.RetailChaincode ≠ "") (hc : t.CommercialChaincode ≠ "")
    (hb : t.BankingChaincode ≠ "")
    (hno : firstHit isHit t b log args = none) :
    updateReferralStatus t b log args
      = (⟨none, (probe3 t b log args).err⟩, log ++ probeCalls t args) := by
  have hv : (getReferralPartner t b log args).1 = ((probe3 t b log args).err, "") := by
    rw [getReferralPartner_val]
    unfold firstHit at hno
    split_ifs at hno ⊢
    rfl
  have hn : probesIssued t b log args = 3 := by
    unfold firstHit at hno
    unfold probesIssued
    split_ifs at hno ⊢
    rfl
  simp only [updateReferralStatus, hv, getReferralPartner_log, hn, if_neg hr.symm,
    if_neg hc.symm, if_neg hb.symm]
  simp [probeCalls]

theorem updateReferralStatus_not_found_witness :
    updateReferralStatus demoBroker queryMissBackend [] ["K1", "closed"]
      = (⟨none, none⟩,
          [⟨"retail", "Query", ["K1", "closed"]⟩, ⟨"commercial", "Query", ["K1", "closed"]⟩,
           ⟨"banking", "Query", ["K1", "closed"]⟩]) :=
  (updateReferralStatus_not_found demoBroker queryMissBackend [] ["K1", "closed"]
    (by decide) (by decide) (by decide) (by decide)).trans (by decide)

/-! ## Merge: first writer wins -/

theorem appendNovel_find (x : String) (acc rs : List CustomerReferral) :
    (appendNovel acc rs).find? (fun a => decide (a.ReferralId = x))
      = (acc ++ rs).find? (fun a => decide (a.ReferralId = x)) := by
  induction rs generalizing acc with
  | nil => simp [appendNovel]
  | cons r rs ih =>
    by_cases hn : ∀ a ∈ acc, a.ReferralId ≠ r.ReferralId
    · simp only [appendNovel, if_pos hn]
      rw [ih]
      simp
    · simp only [appendNovel, if_neg hn]
      rw [ih, List.find?_append, List.find?_append]
      cases hf : acc.find? (fun a => decide (a.ReferralId = x)) with
      | some a => simp
      | none =>
        have hrx : r.ReferralId ≠ x := by
          intro e
          apply hn
          intro a ha
          have := List.find?_eq_none.1 hf a ha
          simp only [decide_eq_true_eq] at this
          rw [e]
          exact this
        simp [List.find?_cons, hrx]

theorem appendNovel_mem (acc rs : List CustomerReferral) (a : CustomerReferral)
    (h : a ∈ appendNovel acc rs) : a ∈ acc ∨ a ∈ rs := by
  induction rs generalizing acc with
  | nil => exact Or.inl h
  | cons r rs ih =>
    by_cases hn : ∀ a ∈ acc, a.ReferralId ≠ r.ReferralId
    · simp only [appendNovel, if_pos hn] at h
      rcases ih _ h with h1 | h1
      · rcases List.mem_append.1 h1 with h2 | h2
        · exact Or.inl h2
        · right
          simp only [List.mem_singleton] at h2
          simp [h2]
      · exact Or.inr (List.mem_cons_of_mem _ h1)
    · simp only [appendNovel, if_neg hn] at h
      rcases ih _ h with h1 | h1
      · exact Or.inl h1
      · exact Or.inr (List.mem_cons_of_mem _ h1)

/-- C14: first writer wins with no loss: for every identifier, the first
record with that identifier in the merged list is the first record with that
identifier in `retail ++ commercial ++ banking` (so an identifier occurring in
some list has a record in the merged list), and every record of the merged
list comes from one of the three lists. -/
theorem searchResults_first_writer_wins (retail commercial banking : List CustomerReferral) :
    (∀ x : String,
      (searchResults retail commercial banking).find? (fun a => decide (a.ReferralId = x))
        = (retail ++ commercial ++ banking).find? (fun a => decide (a.ReferralId = x))) ∧
    (∀ x : String, (∃ a ∈ retail ++ commercial ++ banking, a.ReferralId = x) →
      ∃ a ∈ searchResults retail commercial banking, a.ReferralId = x) ∧
    (∀ a ∈ searchResults retail commercial banking,
      a ∈ retail ∨ a ∈ commercial ∨ a ∈ banking) := by
  have hfind : ∀ x : String,
      (searchResults retail commercial banking).find? (fun a => decide (a.ReferralId = x))
        = (retail ++ commercial ++ banking).find? (fun a => decide (a.ReferralId = x)) := by
    intro x
    simp only [searchResults, List.nil_append, mergeLoop_eq_appendNovel]
    rw [appendNovel_find, List.find?_append, appendNovel_find, ← List.find?_append]
  refine ⟨hfind, ?_, ?_⟩
  · intro x hx
    obtain ⟨a, ha, hax⟩ := hx
    cases hf : (retail ++ commercial ++ banking).find? (fun a => decide (a.ReferralId = x)) with
    | none =>
      have := List.find?_eq_none.1 hf a ha
      simp [hax] at this
    | some c =>
      rw [← hfind x] at hf
      refine ⟨c, List.mem_of_find?_eq_some hf, ?_⟩
      have := List.find?_some hf
      simpa using this
  · intro a ha
    simp only [searchResults, List.nil_append, mergeLoop_eq_appendNovel] at ha
    rcases appendNovel_mem _ _ _ ha with h1 | h1
    · rcases appendNovel_mem _ _ _ h1 with h2 | h2
      · exact Or.inl h2
      · exact Or.inr (Or.inl h2)
    · exact Or.inr (Or.inr h1)

theorem searchResults_first_writer_wins_witness :
    ∃ a ∈ searchResults [mkReferral "R1" "retail" []]
        [mkReferral "R1" "commercial" [], mkReferral "R2" "commercial" []]
        [mkReferral "R2" "banking" []], a.ReferralId = "R2" :=
  (searchResults_first_writer_wins _ _ _).2.1 "R2"
    ⟨mkReferral "R2" "commercial" [], by decide, rfl⟩

/-! ## Search: calls and backend errors -/

theorem searchByStatus_log (t : ReferralPartnerChaincodeBroker) (codec : Codec) (b : Backend)
    (log : List Call) (args : List String) :
    (searchByStatus t codec b log args).2.1
      = log ++ (searchCalls t args).take (searchCallsIssued t codec b log args) := by
  cases h1 : codec.unmarshalReferrals
      (BytesToString (b log ⟨t.RetailChaincode, "Invoke", args⟩).bytes) with
  | error e =>
    simp only [searchByStatus, InvokeChaincode, searchCallsIssued, decodes, searchResponse1,
      searchCalls, h1]
    simp
  | ok l1 =>
    cases h2 : codec.unmarshalReferrals (BytesToString
        (b (log ++ [⟨t.RetailChaincode, "Invoke", args⟩])
          ⟨t.CommercialChaincode, "Invoke", args⟩).bytes) with
    | error e =>
      simp only [searchByStatus, InvokeChaincode, searchCallsIssued, decodes, searchResponse1,
        searchResponse2, searchCalls, h1, h2]
      simp
    | ok l2 =>
      cases h3 : codec.unmarshalReferrals (BytesToString
          (b (log ++ [⟨t.RetailChaincode, "Invoke", args⟩]
              ++ [⟨t.CommercialChaincode, "Invoke", args⟩])
            ⟨t.BankingChaincode, "Invoke", args⟩).bytes) with
      | error e =>
        simp only [searchByStatus, InvokeChaincode, searchCallsIssued, decodes,
          searchResponse1, searchResponse2, searchCalls, h1, h2, h3]
        simp
      | ok l3 =>
        simp only [searchByStatus, InvokeChaincode, searchCallsIssued, decodes,
          searchResponse1, searchResponse2, searchCalls, h1, h2, h3]
        simp

theorem searchByStatus_backend_error_aborts (t : ReferralPartnerChaincodeBroker)
    (codec : Codec) (b : Backend) (log : List Call) (a0 : String) (rest : List String)
    (hnil : ∀ l c, (b l c).err ≠ none → (b l c).bytes = none)
    (hempty : ∃ e, codec.unmarshalReferrals "" = .error e)
    (h : (searchResponse1 t b log (a0 :: rest)).err ≠ none ∨
        (searchResponse2 t b log (a0 :: rest)).err ≠ none ∨
        (searchResponse3 t b log (a0 :: rest)).err ≠ none) :
    (searchByStatus t codec b log (a0 :: rest)).1
      = .ok ⟨none, some ("\x7b\"Error\":\"Failed to get state for " ++ a0 ++ "\"\x7d")⟩ := by
  apply (searchByStatus_decode_failure t codec b log a0 rest ?_).1
  rcases h with h | h | h
  · left
    have := hnil _ _ h
    simp only [searchResponse1] at this ⊢
    rw [this]
    exact hempty
  · right; left
    have := hnil _ _ h
    simp only [searchResponse2] at this ⊢
    rw [this]
    exact hempty
  · right; right
    have := hnil _ _ h
    simp only [searchResponse3] at this ⊢
    rw [this]
    exact hempty

/-- C15 (code evaluated at the failing inputs): first, the retail `Invoke`
returns bytes together with a backend error; `searchByStatus` overwrites the
error with the decode result and returns the banking bytes with nil error.
Second, the retail `Invoke` returns an error with nil bytes and args is empty;
the decode fails and building the message from `args[0]` panics. -/
theorem searchByStatus_ignores_backend_error :
    (fixedBackend ⟨some "[R1,R2]", some "retail timeout"⟩ ⟨some "[R2,R3]", none⟩
        ⟨some "[]", none⟩ [] ⟨"retail", "Invoke", ["open"]⟩).err = some "retail timeout" ∧
    (searchByStatus demoBroker demoCodec
        (fixedBackend ⟨some "[R1,R2]", some "retail timeout"⟩ ⟨some "[R2,R3]", none⟩
          ⟨some "[]", none⟩) [] ["open"]).1 = .ok ⟨some "[]", none⟩ ∧
    (searchByStatus demoBroker demoCodec
        (fixedBackend ⟨none, some "retail down"⟩ ⟨some "[R2,R3]", none⟩ ⟨some "[]", none⟩)
        [] []).1 = .error "index out of range" := by
  exact ⟨rfl, rfl, rfl⟩

/-- C17 (as stated, refuted): the retail response does not decode, and
`searchByStatus` returns after the retail call: one backend call, not three. -/
theorem searchByStatus_stops_after_retail :
    (searchByStatus demoBroker demoCodec
        (fixedBackend ⟨some "not json", none⟩ ⟨some "[R2,R3]", none⟩ ⟨some "[]", none⟩)
        [] ["open"]).2.1 = [⟨"retail", "Invoke", ["open"]⟩] := by
  decide

/-- C17 (amended): `searchByStatus` issues `Invoke` calls with the unchanged
args to retail, then commercial, then banking, stopping after the first
partition whose response fails to decode; it issues exactly these three calls
whenever the retail and commercial responses decode. -/
theorem searchByStatus_calls (t : ReferralPartnerChaincodeBroker) (codec : Codec)
    (b : Backend) (log : List Call) (args : List String) :
    (searchByStatus t codec b log args).2.1
        = log ++ (searchCalls t args).take (searchCallsIssued t codec b log args) ∧
    (decodes codec (searchResponse1 t b log args) = true →
      decodes codec (searchResponse2 t b log args) = true →
      (searchByStatus t codec b log args).2.1 = log ++ searchCalls t args) := by
  refine ⟨searchByStatus_log t codec b log args, ?_⟩
  intro h1 h2
  rw [searchByStatus_log]
  simp [searchCallsIssued, h1, h2, searchCalls]

theorem searchByStatus_calls_witness :
    (searchByStatus demoBroker demoCodec
        (fixedBackend ⟨some "[R1,R2]", none⟩ ⟨some "[R2,R3]", none⟩ ⟨some "not json", none⟩)
        [] ["open"]).2.1
      = [⟨"retail", "Invoke", ["open"]⟩, ⟨"commercial", "Invoke", ["open"]⟩,
         ⟨"banking", "Invoke", ["open"]⟩] :=
  (searchByStatus_calls demoBroker demoCodec _ [] ["open"]).2 rfl rfl

/-! ## Create: number of writes -/

theorem writeCalls_length (t : ReferralPartnerChaincodeBroker) (args : List String)
    (ds : List String) :
    (writeCalls t args ds).length = (ds.filter isRecognizedTag).length := by
  induction ds with
  | nil => rfl
  | cons d ds ih =>
    unfold writeCalls at ih ⊢
    by_cases h1 : d = "RETAIL"
    · simp [List.filter_cons, isRecognizedTag, partnerOfTag, h1] at ih ⊢
      exact ih
    · by_cases h2 : d = "COMMERCIAL"
      · simp [List.filter_cons, isRecognizedTag, partnerOfTag, h2] at ih ⊢
        exact ih
      · by_cases h3 : d = "BANKING"
        · simp [List.filter_cons, isRecognizedTag, partnerOfTag, h3] at ih ⊢
          exact ih
        · simp [List.filter_cons, isRecognizedTag, partnerOfTag, h1, h2, h3] at ih ⊢
          exact ih

theorem partnerOfTag_injective (t : ReferralPartnerChaincodeBroker)
    (hrc : t.RetailChaincode ≠ t.CommercialChaincode)
    (hrb : t.RetailChaincode ≠ t.BankingChaincode)
    (hcb : t.CommercialChaincode ≠ t.BankingChaincode)
    (a a' p : String) (h : p ∈ partnerOfTag t a) (h' : p ∈ partnerOfTag t a') : a = a' := by
  simp only [partnerOfTag, Option.mem_def] at h h'
  split_ifs at h h' <;> simp_all

theorem writeCalls_chaincodes (t : ReferralPartnerChaincodeBroker) (args : List String)
    (ds : List String) :
    (writeCalls t args ds).map (fun c => c.chaincode)
      = (ds.filter isRecognizedTag).filterMap (partnerOfTag t) := by
  rw [← writeCalls_filter]
  simp [writeCalls, Function.comp_def]

/-- C16 (as stated, refuted): the payload names the tag `RETAIL` twice and
both writes succeed; two `Invoke` calls are issued, both to the retail
partition, while there is one distinct recognized tag. -/
theorem createReferral_repeated_tag :
    (createReferral demoBroker duplicateTagCodec
        (fixedBackend ⟨some "stored", none⟩ ⟨some "stored", none⟩ ⟨some "stored", none⟩)
        [] ["K1", "RETAIL,RETAIL"])
      = (⟨some "stored", none⟩,
          [⟨"retail", "Invoke", ["K1", "RETAIL,RETAIL"]⟩,
           ⟨"retail", "Invoke", ["K1", "RETAIL,RETAIL"]⟩]) ∧
    ((["RETAIL", "RETAIL"].filter isRecognizedTag).dedup).length = 1 := by
  decide

/-- C16 (amended): for a two-argument create with a decodable payload in
which all issued writes succeed, there is one write per occurrence of a
recognized tag in `Departments`: the calls issued are exactly the write calls,
as many as there are recognized tag occurrences.  When no recognized tag
occurs twice this is the number of distinct recognized tags, and if moreover
the three partition identifiers are pairwise distinct, no partition receives
more than one write. -/
theorem createReferral_write_count (t : ReferralPartnerChaincodeBroker) (codec : Codec)
    (b : Backend) (log : List Call) (k v : String) (r : CustomerReferral)
    (hdec : codec.unmarshalReferral v = .ok r)
    (hok : firstFailure b log (writeCalls t [k, v] r.Departments) = none) :
    (createReferral t codec b log [k, v]).2 = log ++ writeCalls t [k, v] r.Departments ∧
    (writeCalls t [k, v] r.Departments).length
      = (r.Departments.filter isRecognizedTag).length ∧
    ((r.Departments.filter isRecognizedTag).Nodup →
      (writeCalls t [k, v] r.Departments).length
        = ((r.Departments.filter isRecognizedTag).dedup).length ∧
      (t.RetailChaincode ≠ t.CommercialChaincode → t.RetailChaincode ≠ t.BankingChaincode →
        t.CommercialChaincode ≠ t.BankingChaincode →
        ((writeCalls t [k, v] r.Departments).map (fun c => c.chaincode)).Nodup)) := by
  refine ⟨?_, writeCalls_length _ _ _, ?_⟩
  · rw [createReferral_eq_issueWrites t codec b log k v r hdec]
    by_cases hne : writeCalls t [k, v] r.Departments = []
    · rw [hne]
      simp [issueWrites]
    · rw [issueWrites_of_no_failure b _ _ none log hne hok]
  · intro hnd
    refine ⟨?_, ?_⟩
    · rw [writeCalls_length, hnd.dedup]
    · intro hrc hrb hcb
      rw [writeCalls_chaincodes]
      exact List.Nodup.filterMap (partnerOfTag_injective t hrc hrb hcb) hnd

theorem createReferral_write_count_witness :
    (createReferral demoBroker demoCodec
        (fixedBackend ⟨some "stored", none⟩ ⟨some "stored", none⟩ ⟨some "stored", none⟩)
        [] ["K1", "retail,INSURANCE,BANKING"]).2
      = [⟨"banking", "Invoke", ["K1", "retail,INSURANCE,BANKING"]⟩] ∧
    ((writeCalls demoBroker ["K1", "RETAIL,COMMERCIAL"]
        (mkReferral "R1" "new" ["RETAIL", "COMMERCIAL"]).Departments).map
          (fun c => c.chaincode)).Nodup :=
  ⟨(createReferral_write_count demoBroker demoCodec
      (fixedBackend ⟨some "stored", none⟩ ⟨some "stored", none⟩ ⟨some "stored", none⟩)
      [] "K1" "retail,INSURANCE,BANKING"
      (mkReferral "R1" "new" ["retail", "INSURANCE", "BANKING"]) rfl (by decide)).1.trans
      (by decide),
   ((createReferral_write_count demoBroker demoCodec
      (fixedBackend ⟨some "stored", none⟩ ⟨some "stored", none⟩ ⟨some "stored", none⟩)
      [] "K1" "RETAIL,COMMERCIAL"
      (mkReferral "R1" "new" ["RETAIL", "COMMERCIAL"]) rfl (by decide)).2.2 (by decide)).2
      (by decide) (by decide) (by decide)⟩

/-! ## Configuration, read forwarding and input validation -/

/-- C18 (as stated, refuted): after the identifiers were set, a call of
`Invoke` with the function name `init` runs `Init` again and replaces the
three identifiers. -/
theorem Invoke_init_replaces_identifiers :
    (Invoke demoBroker demoCodec (fixedBackend ⟨none, none⟩ ⟨none, none⟩ ⟨none, none⟩) []
        "init" ["x", "y", "z"]).2.1 = ⟨"x", "y", "z"⟩ ∧
    (⟨"x", "y", "z"⟩ : ReferralPartnerChaincodeBroker) ≠ demoBroker := by
  decide

/-- C18 (amended): every call of `Query`, and every call of `Invoke` whose
function name is not `init`, for every args, leaves `RetailChaincode`,
`CommercialChaincode` and `BankingChaincode` unchanged. -/
theorem entry_points_keep_identifiers (t : ReferralPartnerChaincodeBroker) (codec : Codec)
    (b : Backend) (log : List Call) (function : String) (args : List String) :
    (Query t codec b log function args).2.1 = t ∧
    (function ≠ "init" → (Invoke t codec b log function args).2.1 = t) := by
  constructor
  · unfold Query
    split_ifs <;> rfl
  · intro h
    unfold Invoke
    rw [if_neg h]
    split_ifs <;> rfl

theorem entry_points_keep_identifiers_witness :
    (Invoke demoBroker demoCodec
        (fixedBackend ⟨some "stored", none⟩ ⟨some "stored", none⟩ ⟨some "stored", none⟩) []
        "createReferral" ["K1", "RETAIL,COMMERCIAL"]).2.1 = demoBroker :=
  (entry_points_keep_identifiers demoBroker demoCodec _ [] "createReferral"
    ["K1", "RETAIL,COMMERCIAL"]).2 (by decide)

/-- C19: for one-element args and a deterministic backend (its answer does not
depend on the earlier calls), when `getReferralPartner` resolves the key to a
partition `p`, `read` issues after the probes one `Query` to `p` with the
original args and returns that response's bytes, which are non-nil, with nil
error. -/
theorem read_forwards (t : ReferralPartnerChaincodeBroker) (b : Backend)
    (log : List Call) (key p : String)
    (hdet : ∀ (l l' : List Call) (c : Call), b l c = b l' c)
    (h : firstHit isHit t b log [key] = some p) :
    read t b log [key]
        = (⟨(b log ⟨p, "Query", [key]⟩).bytes, none⟩,
            log ++ (probeCalls t [key]).take (probesIssued t b log [key])
              ++ [⟨p, "Query", [key]⟩]) ∧
    (b log ⟨p, "Query", [key]⟩).bytes ≠ none := by
  have hv : (getReferralPartner t b log [key]).1 = (none, p) := by
    rw [getReferralPartner_val]
    unfold firstHit at h
    split_ifs at h ⊢ <;> simp_all
  have hhit : isHit (b log ⟨p, "Query", [key]⟩) = true := by
    unfold firstHit at h
    split_ifs at h with h1 h2 h3
    · simp only [Option.some.injEq] at h
      rw [← h]; exact h1
    · simp only [Option.some.injEq] at h
      rw [← h, hdet log (log ++ [⟨t.RetailChaincode, "Query", [key]⟩])]; exact h2
    · simp only [Option.some.injEq] at h
      rw [← h, hdet log (log ++ [⟨t.RetailChaincode, "Query", [key]⟩]
        ++ [⟨t.CommercialChaincode, "Query", [key]⟩])]
      exact h3
  have hmem : p = t.RetailChaincode ∨ p = t.CommercialChaincode ∨ p = t.BankingChaincode := by
    unfold firstHit at h
    split_ifs at h <;> simp_all
  simp only [isHit, decide_eq_true_eq] at hhit
  obtain ⟨hb, he, _⟩ := hhit
  refine ⟨?_, hb⟩
  have hq : ∀ l, b l ⟨p, "Query", [key]⟩ = b log ⟨p, "Query", [key]⟩ := fun l => hdet l log _
  simp only [read, hv, getReferralPartner_log, InvokeChaincode, List.length_singleton, ne_eq,
    not_true_eq_false, if_false]
  by_cases h1 : p = t.RetailChaincode
  · rw [if_pos h1, ← h1]
    simp only [hq, he, hb, not_true_eq_false, if_false]
  · by_cases h2 : p = t.CommercialChaincode
    · rw [if_neg h1, if_pos h2, ← h2]
      simp only [hq, he, hb, not_true_eq_false, if_false]
    · have h3 : p = t.BankingChaincode := by tauto
      rw [if_neg h1, if_neg h2, if_pos h3, ← h3]
      simp only [hq, he, hb, not_true_eq_false, if_false]

theorem read_forwards_witness :
    read demoBroker
        (fixedBackend ⟨some "Did not find entry for key: K1", none⟩ ⟨some "record", none⟩
          ⟨some "other", none⟩) [] ["K1"]
      = (⟨some "record", none⟩,
          [⟨"retail", "Query", ["K1"]⟩, ⟨"commercial", "Query", ["K1"]⟩,
           ⟨"commercial", "Query", ["K1"]⟩]) :=
  (read_forwards demoBroker
    (fixedBackend ⟨some "Did not find entry for key: K1", none⟩ ⟨some "record", none⟩
      ⟨some "other", none⟩) [] "K1" "commercial" (fun _ _ _ => rfl) (by decide)).1.trans
    (by decide)

/-- C20: invalid input is rejected before any backend call: `createReferral`
with a number of arguments other than 2, `createReferral` whose `args[1]` does
not decode, and `read` with a number of arguments other than 1 each return an
error and leave the call log unchanged; on a decode failure the returned bytes
contain the payload `args[1]`. -/
theorem invalid_input_rejected (t : ReferralPartnerChaincodeBroker) (codec : Codec)
    (b : Backend) (log : List Call) :
    (∀ args : List String, args.length ≠ 2 →
      (createReferral t codec b log args).1.err ≠ none ∧
      (createReferral t codec b log args).1.bytes = none ∧
      (createReferral t codec b log args).2 = log) ∧
    (∀ (k v e : String), codec.unmarshalReferral v = .error e →
      createReferral t codec b log [k, v]
        = (⟨some ("Count not unmarshall payload data: " ++ v ++ " for the ledger"), some e⟩,
            log) ∧
      stringsContains ("Count not unmarshall payload data: " ++ v ++ " for the ledger") v
        = true) ∧
    (∀ args : List String, args.length ≠ 1 →
      (read t b log args).1.err ≠ none ∧ (read t b log args).1.bytes = none ∧
      (read t b log args).2 = log) := by
  refine ⟨?_, ?_, ?_⟩
  · intro args hlen
    match args, hlen with
    | [], _ => simp [createReferral]
    | [_], _ => simp [createReferral]
    | [_, _], hlen => simp at hlen
    | _ :: _ :: _ :: _, _ => simp [createReferral]
  · intro k v e hdec
    refine ⟨?_, stringsContains_payload _ _ _⟩
    simp only [createReferral, hdec]
  · intro args hlen
    simp [read, hlen]

theorem invalid_input_rejected_witness :
    (createReferral demoBroker demoCodec (fixedBackend ⟨none, none⟩ ⟨none, none⟩ ⟨none, none⟩)
        [] ["K1"]).2 = [] ∧
    createReferral demoBroker demoCodec (fixedBackend ⟨none, none⟩ ⟨none, none⟩ ⟨none, none⟩)
        [] ["K1", "not json"]
      = (⟨some ("Count not unmarshall payload data: " ++ "not json" ++ " for the ledger"),
          some "invalid character"⟩, []) ∧
    (read demoBroker (fixedBackend ⟨none, none⟩ ⟨none, none⟩ ⟨none, none⟩)
        [] ["K1", "K2"]).2 = [] :=
  ⟨((invalid_input_rejected demoBroker demoCodec _ []).1 ["K1"] (by decide)).2.2,
   ((invalid_input_rejected demoBroker demoCodec _ []).2.1 "K1" "not json" "invalid character"
      rfl).1,
   ((invalid_input_rejected demoBroker demoCodec _ []).2.2 ["K1", "K2"] (by decide)).2.2⟩

end ReferralBroker
